import Mathlib

/-! # copilot-ops: command layer, configuration lookup and GPT-3 client

A shallow embedding of
* `pkg/cmd/config/config.go` (`Config`, `Filesets`, `Config.FindFileset`),
* `pkg/cmd/utils.go` (`Flags`, `Request`, `ApplyAIFlags`, `PrepareRequest`,
  `PrintOrWriteOut`),
* `pkg/ai/gpt3/gpt3.go` (`gpt3Client`, `Generate`, `Edit`, the two client
  constructors),

followed by the properties established for them.

Conventions of the embedding.
* A Go `string` is a Lean `String`; text processing works on its character list.
* A Go pointer that may be nil is an `Option`.
* Go integers are `Int` values; a conversion between integer types is the explicit
  two's-complement wrap `wrapSigned` at the width of the target type.
* A `float32` is carried as its bit pattern; the code only copies such values.
* Effects (calls to the backend, to the filemap, to the logger, leaving the process) are
  recorded as explicit traces and outcomes.
* Collaborators whose code lives outside these files (the filemap package, the HTTP
  backend, the configuration loader) are parameters of the functions that call them.
-/

namespace CopilotOps

/-! ## Machine integers -/

/-- Two's-complement reading of an integer at width `w` bits: the unique value in
`[-2^(w-1), 2^(w-1))` congruent to `x` modulo `2^w`. -/
def wrapSigned (w : Nat) (x : Int) : Int :=
  (x + 2 ^ (w - 1)) % 2 ^ w - 2 ^ (w - 1)

/-- The values of Go's `int32`. -/
def isInt32 (x : Int) : Prop := -(2 : Int) ^ 31 ≤ x ∧ x < (2 : Int) ^ 31

instance (x : Int) : Decidable (isInt32 x) := by
  unfold isInt32; infer_instance

/-- Width of Go's `int` on the platform: the language allows 32 or 64 bits. -/
inductive IntSize
  | bits32
  | bits64
  deriving DecidableEq, Repr

/-- Number of bits of an `int`. -/
def IntSize.width : IntSize → Nat
  | .bits32 => 32
  | .bits64 => 64

/-- The conversion `int(x)` of an `int32` value `x`. -/
def intOfInt32 (sz : IntSize) (x : Int) : Int := wrapSigned sz.width x

/-- A `float32`, carried as its IEEE-754 bit pattern. -/
abbrev float32 := Nat

/-! ## `pkg/ai/gpt3` -/

namespace gpt3

def OpenAIURL : String := "https://api.openai.com"
def OpenAIEndpointV1 : String := "/v1"
def OpenAICodeDavinciEditV1 : String := "code-davinci-edit-001"
def OpenAICodeDavinciV2 : String := "code-davinci-002"
def CompletionEndOfSequence : String := "EOF"
def DefaultMaxTokens : Int := 256

/-- The completion request of the go-gpt3 library (`GenerateParams`), with the fields
the repository sets. -/
structure CompletionRequest where
  Model : String
  MaxTokens : Int
  Temperature : float32
  N : Int
  Stream : Bool
  Echo : Bool
  Stop : List String
  LogProbs : Int
  User : String
  deriving DecidableEq, Repr

/-- The edits request of the go-gpt3 library (`EditParams`). -/
structure EditsRequest where
  Model : Option String
  Input : String
  Instruction : String
  N : Int
  Temperature : float32
  TopP : float32
  deriving DecidableEq, Repr

abbrev GenerateParams := CompletionRequest
abbrev EditParams := EditsRequest

/-- One choice of a backend response; the client reads its `Text`. -/
structure Choice where
  Text : String
  Index : Int
  deriving DecidableEq, Repr

/-- A successful backend response (completion or edit): its list of choices. -/
structure Response where
  Choices : List Choice
  deriving DecidableEq, Repr

/-- The go-gpt3 client value: credentials and base URL. -/
structure Client where
  authToken : String
  idOrg : Option String
  BaseURL : String
  deriving DecidableEq, Repr

/-- Values required for connecting to the GPT-3 API. -/
structure Config where
  APIKey : String
  OrgID : Option String
  BaseURL : String
  GenerateParams : GenerateParams
  EditParams : EditParams
  deriving DecidableEq, Repr

def defaultEditParams : EditParams :=
  { Model := some OpenAICodeDavinciEditV1
    Input := ""
    Instruction := ""
    N := 1
    Temperature := 0
    TopP := 0 }

def DefaultConfig : Config :=
  { APIKey := ""
    OrgID := none
    BaseURL := OpenAIURL ++ OpenAIEndpointV1
    GenerateParams :=
      { Model := OpenAICodeDavinciV2
        MaxTokens := DefaultMaxTokens
        Temperature := 0
        N := 1
        Stream := false
        Echo := false
        Stop := [CompletionEndOfSequence]
        LogProbs := 0
        User := "copilot-ops" }
    EditParams := defaultEditParams }

/-- Wrapper around the go-gpt3 client. -/
structure gpt3Client where
  client : Client
  editParams : Option EditsRequest
  completionParams : Option CompletionRequest
  deriving DecidableEq, Repr

/-- The remote API as seen by the client: each endpoint answers a request with a
response or with an error of the transport library (`ε`). -/
structure Backend (ε : Type) where
  CreateCompletion : Client → CompletionRequest → Except ε Response
  Edits : Client → EditsRequest → Except ε Response

/-- A request that left the process. -/
inductive ApiCall
  | createCompletion (c : Client) (req : CompletionRequest)
  | edits (c : Client) (req : EditsRequest)
  deriving DecidableEq, Repr

/-- Errors returned by `Generate` and `Edit`, by the statement that produced them. -/
inductive ClientError (ε : Type)
  /-- `fmt.Errorf(msg)`, an error created by the client itself. -/
  | errorf (msg : String)
  /-- `fmt.Errorf(msg + ": %w", cause)`, a backend error wrapped by the client. -/
  | wrapf (msg : String) (cause : ε)
  /-- A backend error returned as it is. -/
  | backend (cause : ε)
  deriving DecidableEq, Repr

/-- The collecting loop shared by `Generate` and `Edit`:
`out := make([]string, len(choices)); for i, choice := range choices { out[i] = choice.Text }`.
The state is the slice and the index. -/
def collectTexts (choices : List Choice) : List String :=
  (choices.foldl
    (fun (st : List String × Nat) (choice : Choice) => (st.1.set st.2 choice.Text, st.2 + 1))
    (List.replicate choices.length "", 0)).1

/-- `gpt3Client.Generate`: the requests sent, and the returned `([]string, error)`. -/
def gpt3Client.Generate {ε : Type} (api : Backend ε) (c : gpt3Client) :
    List ApiCall × Except (ClientError ε) (List String) :=
  match c.completionParams with
  | none => ([], .error (.errorf "no completions params were provided"))
  | some params =>
    match api.CreateCompletion c.client params with
    | .error err => ([.createCompletion c.client params], .error (.backend err))
    | .ok resp => ([.createCompletion c.client params], .ok (collectTexts resp.Choices))

/-- `gpt3Client.Edit`: the requests sent, and the returned `([]string, error)`. -/
def gpt3Client.Edit {ε : Type} (api : Backend ε) (c : gpt3Client) :
    List ApiCall × Except (ClientError ε) (List String) :=
  match c.editParams with
  | none => ([], .error (.errorf "no edit params were provided"))
  | some params =>
    match api.Edits c.client params with
    | .error err => ([.edits c.client params], .error (.wrapf "could not request openai" err))
    | .ok resp => ([.edits c.client params], .ok (collectTexts resp.Choices))

/-- `gogpt.NewClient(apiKey)`. -/
def NewClient (apiKey : String) : Client :=
  { authToken := apiKey, idOrg := none, BaseURL := OpenAIURL ++ OpenAIEndpointV1 }

/-- `gogpt.NewOrgClient(apiKey, org)`. -/
def NewOrgClient (apiKey org : String) : Client :=
  { authToken := apiKey, idOrg := some org, BaseURL := OpenAIURL ++ OpenAIEndpointV1 }

/-- `createGPT3Client`: a go-gpt3 client for the given configuration. -/
def createGPT3Client (conf : Config) : Client :=
  let client :=
    match conf.OrgID with
    | some org => NewOrgClient conf.APIKey org
    | none => NewClient conf.APIKey
  { client with BaseURL := conf.BaseURL }

/-- `CreateGPT3GenerateClient`. -/
def CreateGPT3GenerateClient (conf : Config) : gpt3Client :=
  let client := createGPT3Client conf
  { client := client
    editParams := none
    completionParams := some conf.GenerateParams }

/-- `CreateGPT3EditClient`; `temperature` and `topP` are nil-able pointers. -/
def CreateGPT3EditClient (conf : Config) (input instruction : String) (numEdits : Int)
    (temperature topP : Option float32) : gpt3Client :=
  let client := createGPT3Client conf
  let model := OpenAICodeDavinciEditV1
  let editParams : EditsRequest :=
    { Model := some model
      N := numEdits
      Input := input
      Instruction := instruction
      Temperature := 0
      TopP := 0 }
  let editParams :=
    match temperature with
    | some t => { editParams with Temperature := t }
    | none => editParams
  let editParams :=
    match topP with
    | some p => { editParams with TopP := p }
    | none => editParams
  { client := client
    editParams := some editParams
    completionParams := none }

end gpt3

/-! ## Collaborating packages declared outside these files -/

namespace gptj

/-- Modelled from the spec: `gptj.GenerateParams` is declared in `pkg/ai/gptj`, outside
the embedded files; the field is the one the command layer writes (an `int32`). -/
structure GenerateParams where
  ResponseLength : Int
  deriving DecidableEq, Repr

/-- Modelled from the spec: `gptj.Config` is declared in `pkg/ai/gptj`, outside the
embedded files; the fields are those the command layer refers to. -/
structure Config where
  URL : String
  GenerateParams : GenerateParams
  deriving DecidableEq, Repr

end gptj

namespace bloom

/-- Modelled from the spec: `bloom.GenerateParams` is declared in `pkg/ai/bloom`, outside
the embedded files; the field is the one the command layer writes (an `int`). -/
structure GenerateParams where
  MaxNewTokens : Int
  deriving DecidableEq, Repr

/-- Modelled from the spec: `bloom.Config` is declared in `pkg/ai/bloom`, outside the
embedded files; the fields are those the command layer refers to. -/
structure Config where
  URL : String
  GenerateParams : GenerateParams
  deriving DecidableEq, Repr

end bloom

/-! ## `strings.ReplaceAll` of the Go standard library -/

namespace strings

/-- Left-to-right scan of `strings.Replace` for a non-empty `old`: at a position where
`old` starts, `new` is emitted and the remaining `old.length - 1` characters of the
occurrence are skipped (the counter); elsewhere the character is copied. -/
def replaceFrom (old new : List Char) : Nat → List Char → List Char
  | _, [] => []
  | k + 1, _ :: cs => replaceFrom old new k cs
  | 0, c :: cs =>
    if old.isPrefixOf (c :: cs) then new ++ replaceFrom old new (old.length - 1) cs
    else c :: replaceFrom old new 0 cs

/-- `strings.ReplaceAll(s, old, new)`: every non-overlapping occurrence of `old`,
found from the left, is replaced by `new`. An empty `old` matches before every
character and at the end. -/
def ReplaceAll (s old new : String) : String :=
  if old = new then s
  else if old.data = [] then ⟨new.data ++ s.data.flatMap (fun c => c :: new.data)⟩
  else ⟨replaceFrom old.data new.data 0 s.data⟩

end strings

/-! ## `pkg/cmd/config` -/

namespace config

def ConfigName : String := ".copilot-ops"
def ConfigFile : String := ".copilot-ops.yaml"
def ConfigFileLocal : String := ".copilot-ops.local"

/-- A named group of files. -/
structure Filesets where
  Name : String
  Files : List String
  deriving DecidableEq, Repr

/-- The struct into which the config file is parsed. `Backend` is the string-typed
`ai.Backend`; the three backend sections are nil-able pointers. -/
structure Config where
  Filesets : List Filesets
  Backend : String
  GPT3 : Option gpt3.Config
  GPTJ : Option gptj.Config
  BLOOM : Option bloom.Config
  deriving DecidableEq, Repr

/-- The loop of `FindFileset`: the first element whose `Name` equals `name`. -/
def findFilesetLoop (name : String) : List Filesets → Option Filesets
  | [] => none
  | fileset :: rest =>
    if fileset.Name = name then some fileset else findFilesetLoop name rest

/-- `(c *Config) FindFileset(name)`: the returned pointer (nil is `none`; the pointee is a
copy of the matching element), together with the configuration `c` points to after
the call. -/
def Config.FindFileset (c : Config) (name : String) : Option config.Filesets × Config :=
  (findFilesetLoop name c.Filesets, c)

end config

/-! ## `pkg/cmd` -/

namespace cmd

/-- Values used when requesting new files from the selected backend. `FM` is the state
of a `filemap.Filemap`. -/
structure Request (FM : Type) where
  Config : config.Config
  Fileset : Option config.Filesets
  Filemap : FM
  FilemapText : String
  UserRequest : String
  IsWrite : Bool
  OutputType : String

/-- The values extracted from the command line; `NTokens` and `NCompletions` are
`int32`. -/
structure Flags where
  Request : String
  Write : Bool
  Path : String
  Files : List String
  Filesets : List String
  NTokens : Int
  NCompletions : Int
  OutputType : String
  AIBackend : String
  deriving DecidableEq, Repr

/-- `ApplyAIFlags(flags, conf)`: the configuration `conf` points to after the call.
`sz` is the platform width of `int`. -/
def ApplyAIFlags (sz : IntSize) (flags : Flags) (conf : config.Config) : config.Config :=
  let conf :=
    if flags.NTokens ≠ 0 then
      match conf.GPT3, conf.GPTJ, conf.BLOOM with
      | some g, _, _ =>
        { conf with
          GPT3 := some { g with
            GenerateParams := { g.GenerateParams with
              MaxTokens := intOfInt32 sz flags.NTokens } } }
      | none, some j, _ =>
        { conf with
          GPTJ := some { j with
            GenerateParams := { j.GenerateParams with ResponseLength := flags.NTokens } } }
      | none, none, some b =>
        { conf with
          BLOOM := some { b with
            GenerateParams := { b.GenerateParams with
              MaxNewTokens := intOfInt32 sz flags.NTokens } } }
      | none, none, none => conf
    else conf
  if flags.NCompletions ≠ 0 then
    match conf.GPT3 with
    | some g =>
      { conf with
        GPT3 := some { g with
          GenerateParams := { g.GenerateParams with
            N := intOfInt32 sz flags.NCompletions } } }
    | none => conf
  else conf

/-- How a call ends: it returns to its caller, or `log.Fatalf` logs the formatted
error and leaves the process with status 1. -/
inductive Outcome (α ε : Type)
  | returned (v : α)
  | fatal (format : String) (err : ε)

/-- What `PrepareRequest` calls outside `pkg/cmd`, over a world `W` (working
directory, files, environment): `os.Chdir`, `Config.Load` on an empty config,
and the filemap package (`NewFilemap`, `LoadFiles`, `LoadFilesets`,
`EncodeToInputText`). A failing call yields `some err`. -/
structure PrepareDeps (W FM ε : Type) where
  Chdir : String → W → Option ε × W
  Load : W → Except ε config.Config × W
  NewFilemap : FM
  LoadFiles : FM → List String → W → (FM × Option ε) × W
  LoadFilesets : FM → List String → config.Config → String → W → (FM × Option ε) × W
  EncodeToInputText : FM → String

/-- `PrepareRequest(cmd)`, from the flags `ExtractFlags(cmd)` yields: the returned
`(*Request, error)` pair or the fatal exit, and the world afterwards. Diagnostic
logging is left out. -/
def PrepareRequest {W FM ε : Type} (deps : PrepareDeps W FM ε) (sz : IntSize)
    (flags : Flags) (w : W) : Outcome (Option (Request FM) × Option ε) ε × W :=
  let chdir := if flags.Path ≠ "" then deps.Chdir flags.Path w else (none, w)
  match chdir with
  | (some err, w) => (.returned (none, some err), w)
  | (none, w) =>
    match deps.Load w with
    | (.error err, w) => (.returned (none, some err), w)
    | (.ok conf, w) =>
      let conf := ApplyAIFlags sz flags conf
      let fm := deps.NewFilemap
      match deps.LoadFiles fm flags.Files w with
      | ((_, some err), w) => (.fatal "error loading files: %s\n" err, w)
      | ((fm, none), w) =>
        match deps.LoadFilesets fm flags.Filesets conf config.ConfigFile w with
        | ((_, some err), w) => (.fatal "error loading filesets: %s\n" err, w)
        | ((fm, none), w) =>
          let filemapText := deps.EncodeToInputText fm
          let r : Request FM :=
            { Config := conf
              Fileset := none
              Filemap := fm
              FilemapText := filemapText
              UserRequest := flags.Request
              IsWrite := flags.Write
              OutputType := flags.OutputType }
          (.returned (some r, none), w)

/-- The two filemap operations `PrintOrWriteOut` delegates to, over a world `W`. -/
structure FilemapOps (W FM ε : Type) where
  WriteUpdatesToFiles : FM → W → Option ε × W
  EncodeToInputTextFullPaths : FM → String → W → Except ε String × W

/-- What `PrintOrWriteOut` does, in order. -/
inductive Event
  | writeUpdatesToFiles
  | encodeToInputTextFullPaths (outputType : String)
  | logPrintf (format : String) (arg : String)
  deriving DecidableEq, Repr

/-- Result of `PrintOrWriteOut`: the events, the returned error (nil is `none`) and the
world afterwards. -/
structure PrintResult (W ε : Type) where
  events : List Event
  err : Option ε
  world : W

/-- `PrintOrWriteOut(r)`. -/
def PrintOrWriteOut {W FM ε : Type} (ops : FilemapOps W FM ε) (r : Request FM) (w : W) :
    PrintResult W ε :=
  if r.IsWrite then
    match ops.WriteUpdatesToFiles r.Filemap w with
    | (some err, w) => { events := [.writeUpdatesToFiles], err := some err, world := w }
    | (none, w) => { events := [.writeUpdatesToFiles], err := none, world := w }
  else
    match ops.EncodeToInputTextFullPaths r.Filemap r.OutputType w with
    | (.error err, w) =>
      { events := [.encodeToInputTextFullPaths r.OutputType], err := some err, world := w }
    | (.ok fmOutput, w) =>
      let stringOut := strings.ReplaceAll fmOutput "\\n" "\n"
      { events := [.encodeToInputTextFullPaths r.OutputType, .logPrintf "\n%s\n" stringOut]
        err := none
        world := w }

/-- The texts handed to the logger, in order. -/
def printedTexts : List Event → List String
  | [] => []
  | .logPrintf _ arg :: rest => arg :: printedTexts rest
  | _ :: rest => printedTexts rest

/-- The two-character sequence that `PrintOrWriteOut` replaces: a backslash followed
by the letter `n`. -/
def escapedNewline : List Char := "\\n".data

/-- The replacement: one line break. -/
def lineBreak : List Char := "\n".data

/-- The stretches of a text between the escaped newlines found from the left. -/
def splitEscaped : List Char → List (List Char)
  | [] => [[]]
  | [c] => [[c]]
  | c :: d :: rest =>
    if c = '\\' ∧ d = 'n' then [] :: splitEscaped rest
    else
      match splitEscaped (d :: rest) with
      | [] => [[c]]
      | p :: ps => (c :: p) :: ps

end cmd

/-! ## Concrete inputs used to exercise the statements -/

namespace Examples

/-- The configuration of the test `filesets are provided`. -/
def testConfig : config.Config :=
  { Filesets := [{ Name := "test", Files := ["test.txt"] }]
    Backend := "gpt-3"
    GPT3 := none
    GPTJ := none
    BLOOM := none }

/-- A configuration with the fileset `docs` declared twice. -/
def docsConfig : config.Config :=
  { Filesets :=
      [ { Name := "src", Files := ["main.go"] },
        { Name := "docs", Files := ["README.md", "CHANGELOG.md"] },
        { Name := "docs", Files := ["LICENSE"] } ]
    Backend := "gpt-3"
    GPT3 := none
    GPTJ := none
    BLOOM := none }

/-- A stand-in filemap package: the filemap state is its encoded text, the world is
the list of texts written to disk; `"json"` and `"raw"` are the known output types. -/
def textOps : cmd.FilemapOps (List String) String String :=
  { WriteUpdatesToFiles := fun fm w =>
      if fm = "" then (some "no updates to write", w) else (none, w ++ [fm])
    EncodeToInputTextFullPaths := fun fm outputType w =>
      if outputType = "json" ∨ outputType = "raw" then (.ok fm, w)
      else (.error ("invalid output type: " ++ outputType), w) }

/-- A request over the stand-in filemap. -/
def textRequest (fm : String) (isWrite : Bool) (outputType : String) : cmd.Request String :=
  { Config := testConfig
    Fileset := none
    Filemap := fm
    FilemapText := fm
    UserRequest := "add a license header"
    IsWrite := isWrite
    OutputType := outputType }

/-- Flags naming one explicit file and one fileset. -/
def someFlags : cmd.Flags :=
  { Request := "add a license header"
    Write := false
    Path := ""
    Files := ["main.go"]
    Filesets := ["docs"]
    NTokens := 0
    NCompletions := 0
    OutputType := "json"
    AIBackend := "gpt-3" }

/-- Collaborators of `PrepareRequest` over a world that lists the files on disk: a file
loads when it is on disk, a fileset loads when the configuration declares it. -/
def diskDeps : cmd.PrepareDeps (List String) (List String) String :=
  { Chdir := fun _ w => (none, w)
    Load := fun w => (.ok docsConfig, w)
    NewFilemap := []
    LoadFiles := fun fm files w =>
      match files.find? (fun f => !w.contains f) with
      | some f => ((fm, some ("open " ++ f ++ ": no such file or directory")), w)
      | none => ((fm ++ files, none), w)
    LoadFilesets := fun fm names conf _ w =>
      match names.find? (fun n => (conf.FindFileset n).1.isNone) with
      | some n => ((fm, some ("fileset not found: " ++ n)), w)
      | none => ((fm ++ names, none), w)
    EncodeToInputText := fun fm => String.intercalate "\n" fm }

/-- A backend that rejects an empty API key and otherwise answers two choices to a
completion and one to an edit. -/
def cannedBackend : gpt3.Backend String :=
  { CreateCompletion := fun c _ =>
      if c.authToken = "" then .error "status code: 401"
      else .ok { Choices := [{ Text := "first", Index := 0 }, { Text := "second", Index := 1 }] }
    Edits := fun c req =>
      if c.authToken = "" then .error "status code: 401"
      else .ok { Choices := [{ Text := req.Input ++ " edited", Index := 0 }] } }

/-- The default GPT-3 section with an API key. -/
def keyedGPT3 : gpt3.Config := { gpt3.DefaultConfig with APIKey := "key" }

/-- A configuration with all three backend sections, GPT-J selected. -/
def fullConfig : config.Config :=
  { Filesets := []
    Backend := "gpt-j"
    GPT3 := some keyedGPT3
    GPTJ := some { URL := "http://localhost:8080", GenerateParams := { ResponseLength := 128 } }
    BLOOM := some { URL := "http://localhost:8081", GenerateParams := { MaxNewTokens := 64 } } }

/-- The flags of the generate test: `--ntokens 1`, and three completions. -/
def tokenFlags : cmd.Flags :=
  { someFlags with NTokens := 1, NCompletions := 3 }

end Examples

/-! ## Properties of `Config.FindFileset` -/

theorem findFilesetLoop_eq_none_iff (name : String) (l : List config.Filesets) :
    config.findFilesetLoop name l = none ↔ ∀ e ∈ l, e.Name ≠ name := by
  induction l with
  | nil => simp [config.findFilesetLoop]
  | cons a rest ih =>
    by_cases h : a.Name = name
    · simp [config.findFilesetLoop, h]
    · simp [config.findFilesetLoop, h, ih]

theorem findFilesetLoop_eq_some (name : String) (l : List config.Filesets)
    (fs : config.Filesets) (h : config.findFilesetLoop name l = some fs) :
    ∃ pre post, l = pre ++ fs :: post ∧ (∀ x ∈ pre, x.Name ≠ name) ∧ fs.Name = name := by
  induction l with
  | nil => simp [config.findFilesetLoop] at h
  | cons a rest ih =>
    by_cases ha : a.Name = name
    · simp [config.findFilesetLoop, ha] at h
      subst h
      exact ⟨[], rest, rfl, by simp, ha⟩
    · simp [config.findFilesetLoop, ha] at h
      obtain ⟨pre, post, hl, hpre, hn⟩ := ih h
      refine ⟨a :: pre, post, by simp [hl], ?_, hn⟩
      intro x hx
      rcases List.mem_cons.mp hx with rfl | hx
      · exact ha
      · exact hpre x hx

/-- C1. `FindFileset(name)` returns a fileset exactly when some configured fileset has a
`Name` equal to `name` as a string (so case matters), and returns nil otherwise; on an
empty fileset list it returns nil. -/
theorem FindFileset_found_iff_exact_name (c : config.Config) (name : String) :
    ((∃ fs, (c.FindFileset name).1 = some fs) ↔ ∃ e ∈ c.Filesets, e.Name = name) ∧
    ((∀ e ∈ c.Filesets, e.Name ≠ name) → (c.FindFileset name).1 = none) ∧
    (c.Filesets = [] → (c.FindFileset name).1 = none) := by
  have key := findFilesetLoop_eq_none_iff name c.Filesets
  refine ⟨?_, ?_, ?_⟩
  · constructor
    · rintro ⟨fs, hfs⟩
      by_contra hne
      have : config.findFilesetLoop name c.Filesets = none :=
        key.mpr (fun e he hn => hne ⟨e, he, hn⟩)
      simp [config.Config.FindFileset, this] at hfs
    · rintro ⟨e, he, hn⟩
      cases hres : config.findFilesetLoop name c.Filesets with
      | none => exact absurd hn (key.mp hres e he)
      | some fs => exact ⟨fs, by simp [config.Config.FindFileset, hres]⟩
  · intro h
    simpa [config.Config.FindFileset] using key.mpr h
  · intro h
    simp [config.Config.FindFileset, h, config.findFilesetLoop]

/-- Witness for C1 on the configuration of the repository's test: `"test"` is found,
`"test2"` and `"TEST"` are not. -/
theorem FindFileset_found_iff_exact_name_witness :
    (∃ fs, (Examples.testConfig.FindFileset "test").1 = some fs) ∧
    (Examples.testConfig.FindFileset "test2").1 = none ∧
    (Examples.testConfig.FindFileset "TEST").1 = none :=
  ⟨(FindFileset_found_iff_exact_name Examples.testConfig "test").1.mpr
      ⟨{ Name := "test", Files := ["test.txt"] }, by simp [Examples.testConfig], rfl⟩,
   (FindFileset_found_iff_exact_name Examples.testConfig "test2").2.1
      (by simp [Examples.testConfig]),
   (FindFileset_found_iff_exact_name Examples.testConfig "TEST").2.1
      (by simp [Examples.testConfig])⟩

/-- C2. When `FindFileset(name)` returns a fileset, its `Name` is `name`, it is the
earliest entry of `Filesets` with that name (so its `Files` are that entry's paths in the
same order), and the configuration is the same after the lookup. -/
theorem FindFileset_returns_earliest_entry (c : config.Config) (name : String)
    (fs : config.Filesets) (h : (c.FindFileset name).1 = some fs) :
    fs.Name = name ∧
    (∃ pre e post, c.Filesets = pre ++ e :: post ∧ (∀ x ∈ pre, x.Name ≠ name) ∧
      e.Name = name ∧ fs.Files = e.Files) ∧
    (c.FindFileset name).2 = c := by
  obtain ⟨pre, post, hl, hpre, hn⟩ := findFilesetLoop_eq_some name c.Filesets fs h
  exact ⟨hn, ⟨pre, fs, post, hl, hpre, hn, rfl⟩, rfl⟩

/-- Witness for C2: `docs` resolves to `README.md`, `CHANGELOG.md` in that order, the
files of its first declaration. -/
theorem FindFileset_returns_earliest_entry_witness :
    (Examples.docsConfig.FindFileset "docs").1 =
        some { Name := "docs", Files := ["README.md", "CHANGELOG.md"] } ∧
    (∃ pre e post, Examples.docsConfig.Filesets = pre ++ e :: post ∧
      (∀ x ∈ pre, x.Name ≠ "docs") ∧ e.Name = "docs" ∧
      ["README.md", "CHANGELOG.md"] = e.Files) ∧
    (Examples.docsConfig.FindFileset "docs").2 = Examples.docsConfig :=
  ⟨by decide,
   (FindFileset_returns_earliest_entry Examples.docsConfig "docs"
      { Name := "docs", Files := ["README.md", "CHANGELOG.md"] } (by decide)).2.1,
   (FindFileset_returns_earliest_entry Examples.docsConfig "docs"
      { Name := "docs", Files := ["README.md", "CHANGELOG.md"] } (by decide)).2.2⟩

/-! ## Properties of `PrintOrWriteOut` -/

/-- C3. `PrintOrWriteOut` does one of two things, selected by `IsWrite`. With `IsWrite`
set, its only action is the call of `WriteUpdatesToFiles`: nothing is encoded, nothing is
printed. With `IsWrite` unset, it calls `EncodeToInputTextFullPaths` with the request's
`OutputType` and prints the text that call produced (with escaped newlines turned into
line breaks); `WriteUpdatesToFiles` is not called and the world is the one the encoding
call left. -/
theorem PrintOrWriteOut_selects_by_IsWrite {W FM ε : Type} (ops : cmd.FilemapOps W FM ε)
    (r : cmd.Request FM) (w : W) :
    (r.IsWrite = true →
      (cmd.PrintOrWriteOut ops r w).events = [.writeUpdatesToFiles] ∧
      (cmd.PrintOrWriteOut ops r w).world = (ops.WriteUpdatesToFiles r.Filemap w).2) ∧
    (r.IsWrite = false →
      cmd.Event.writeUpdatesToFiles ∉ (cmd.PrintOrWriteOut ops r w).events ∧
      (cmd.PrintOrWriteOut ops r w).world =
        (ops.EncodeToInputTextFullPaths r.Filemap r.OutputType w).2 ∧
      (∀ s, (ops.EncodeToInputTextFullPaths r.Filemap r.OutputType w).1 = .ok s →
        (cmd.PrintOrWriteOut ops r w).events =
          [.encodeToInputTextFullPaths r.OutputType,
           .logPrintf "\n%s\n" (strings.ReplaceAll s "\\n" "\n")]) ∧
      (∀ e, (ops.EncodeToInputTextFullPaths r.Filemap r.OutputType w).1 = .error e →
        (cmd.PrintOrWriteOut ops r w).events =
          [.encodeToInputTextFullPaths r.OutputType])) := by
  constructor
  · intro hw
    unfold cmd.PrintOrWriteOut
    rw [if_pos hw]
    rcases hres : ops.WriteUpdatesToFiles r.Filemap w with ⟨_ | err, w1⟩ <;> simp
  · intro hw
    unfold cmd.PrintOrWriteOut
    rw [if_neg (by simp [hw])]
    rcases hres : ops.EncodeToInputTextFullPaths r.Filemap r.OutputType w with
      ⟨err | out, w1⟩ <;> simp

/-- Witness for C3: a write request only writes, a print request encodes and prints and
leaves the disk as it was. -/
theorem PrintOrWriteOut_selects_by_IsWrite_witness :
    ((cmd.PrintOrWriteOut Examples.textOps (Examples.textRequest "a.txt" true "json") []).events
        = [.writeUpdatesToFiles] ∧
      (cmd.PrintOrWriteOut Examples.textOps (Examples.textRequest "a.txt" true "json") []).world
        = ["a.txt"]) ∧
    (cmd.PrintOrWriteOut Examples.textOps (Examples.textRequest "a.txt" false "json") []).events
        = [.encodeToInputTextFullPaths "json", .logPrintf "\n%s\n" "a.txt"] ∧
    (cmd.PrintOrWriteOut Examples.textOps (Examples.textRequest "a.txt" false "json") []).world
        = [] :=
  ⟨(PrintOrWriteOut_selects_by_IsWrite Examples.textOps
      (Examples.textRequest "a.txt" true "json") []).1 rfl,
   ((PrintOrWriteOut_selects_by_IsWrite Examples.textOps
      (Examples.textRequest "a.txt" false "json") []).2 rfl).2.2.1 "a.txt" rfl,
   ((PrintOrWriteOut_selects_by_IsWrite Examples.textOps
      (Examples.textRequest "a.txt" false "json") []).2 rfl).2.1⟩

/-- C4. `PrintOrWriteOut` returns the error of the operation it delegates to and only
that: with `IsWrite` set its result is the result of `WriteUpdatesToFiles` (nil or that
error); otherwise it is nil when `EncodeToInputTextFullPaths(OutputType)` succeeds and is
the encoding error when it fails, and in that case nothing is printed. -/
theorem PrintOrWriteOut_returns_delegate_error {W FM ε : Type}
    (ops : cmd.FilemapOps W FM ε) (r : cmd.Request FM) (w : W) :
    (r.IsWrite = true →
      (cmd.PrintOrWriteOut ops r w).err = (ops.WriteUpdatesToFiles r.Filemap w).1) ∧
    (r.IsWrite = false →
      (∀ s, (ops.EncodeToInputTextFullPaths r.Filemap r.OutputType w).1 = .ok s →
        (cmd.PrintOrWriteOut ops r w).err = none) ∧
      (∀ e, (ops.EncodeToInputTextFullPaths r.Filemap r.OutputType w).1 = .error e →
        (cmd.PrintOrWriteOut ops r w).err = some e ∧
        cmd.printedTexts (cmd.PrintOrWriteOut ops r w).events = [])) := by
  constructor
  · intro hw
    unfold cmd.PrintOrWriteOut
    rw [if_pos hw]
    rcases hres : ops.WriteUpdatesToFiles r.Filemap w with ⟨_ | err, w1⟩ <;> simp
  · intro hw
    unfold cmd.PrintOrWriteOut
    rw [if_neg (by simp [hw])]
    rcases hres : ops.EncodeToInputTextFullPaths r.Filemap r.OutputType w with
      ⟨err | out, w1⟩ <;> simp [cmd.printedTexts]

/-- Witness for C4: a failing write and a rejected output type are both returned, and
the rejected encoding prints nothing. -/
theorem PrintOrWriteOut_returns_delegate_error_witness :
    (cmd.PrintOrWriteOut Examples.textOps (Examples.textRequest "" true "json") []).err
        = some "no updates to write" ∧
    (cmd.PrintOrWriteOut Examples.textOps (Examples.textRequest "a.txt" false "yaml") []).err
        = some "invalid output type: yaml" ∧
    cmd.printedTexts
      (cmd.PrintOrWriteOut Examples.textOps (Examples.textRequest "a.txt" false "yaml") []).events
        = [] :=
  ⟨(PrintOrWriteOut_returns_delegate_error Examples.textOps
      (Examples.textRequest "" true "json") []).1 rfl,
   ((PrintOrWriteOut_returns_delegate_error Examples.textOps
      (Examples.textRequest "a.txt" false "yaml") []).2 rfl).2
        "invalid output type: yaml" rfl⟩


theorem wrapSigned_of_isInt32 (sz : IntSize) (x : Int) (h : isInt32 x) :
    intOfInt32 sz x = x := by
  unfold isInt32 at h
  cases sz <;> simp only [intOfInt32, wrapSigned, IntSize.width] <;> norm_num at h ⊢ <;> omega

theorem collectTexts_loop (choices : List gpt3.Choice) :
    ∀ (done pad : List String), pad.length = choices.length →
      choices.foldl
        (fun (st : List String × Nat) (choice : gpt3.Choice) =>
          (st.1.set st.2 choice.Text, st.2 + 1))
        (done ++ pad, done.length)
      = (done ++ choices.map (fun c => c.Text), done.length + choices.length) := by
  induction choices with
  | nil =>
    intro done pad hpad
    have : pad = [] := List.length_eq_zero.mp hpad
    simp [this]
  | cons c cs ih =>
    intro done pad hpad
    cases pad with
    | nil => simp at hpad
    | cons p pad =>
      have hlen : pad.length = cs.length := by simpa using hpad
      have hset : (done ++ p :: pad).set done.length c.Text = (done ++ [c.Text]) ++ pad := by
        simp [List.set_append]
      have := ih (done ++ [c.Text]) pad hlen
      simp only [List.foldl_cons, hset]
      simp only [List.length_append, List.length_singleton] at this
      rw [this]
      refine Prod.ext (by simp) ?_
      simp only [List.length_cons]
      omega

theorem collectTexts_eq_map (choices : List gpt3.Choice) :
    gpt3.collectTexts choices = choices.map (fun c => c.Text) := by
  have := collectTexts_loop choices [] (List.replicate choices.length "") (by simp)
  simp only [List.nil_append, List.length_nil] at this
  simp [gpt3.collectTexts, this]


/-! ## Properties of `PrepareRequest` -/

/-- C5, counterexample. With no file on disk, loading the explicit file `main.go`
fails, and `PrepareRequest` does not return at all: it ends in `log.Fatalf`. -/
theorem PrepareRequest_load_failure_not_returned :
    (Examples.diskDeps.LoadFiles Examples.diskDeps.NewFilemap Examples.someFlags.Files []).1.2
        = some "open main.go: no such file or directory" ∧
    (cmd.PrepareRequest Examples.diskDeps .bits64 Examples.someFlags []).1
        = .fatal "error loading files: %s\n" "open main.go: no such file or directory" ∧
    ¬ ∃ v, (cmd.PrepareRequest Examples.diskDeps .bits64 Examples.someFlags []).1
        = .returned v := by
  refine ⟨rfl, rfl, ?_⟩
  rintro ⟨v, hv⟩
  have h : (cmd.PrepareRequest Examples.diskDeps .bits64 Examples.someFlags []).1
      = .fatal "error loading files: %s\n" "open main.go: no such file or directory" := rfl
  rw [h] at hv
  cases hv

/-- C5, amended. Once the working directory is set and the configuration is loaded, a
failure of `LoadFiles`, or of `LoadFilesets` after `LoadFiles` succeeded, ends
`PrepareRequest` in `log.Fatalf` with that error in the message: the process exits and
neither a Request nor an error value reaches the caller. -/
theorem PrepareRequest_load_failure_is_fatal {W FM ε : Type} (deps : cmd.PrepareDeps W FM ε)
    (sz : IntSize) (flags : cmd.Flags) (w w1 w2 : W) (conf : config.Config)
    (hchdir : (if flags.Path ≠ "" then deps.Chdir flags.Path w else (none, w)) = (none, w1))
    (hload : deps.Load w1 = (.ok conf, w2)) :
    (∀ fm err w3, deps.LoadFiles deps.NewFilemap flags.Files w2 = ((fm, some err), w3) →
      cmd.PrepareRequest deps sz flags w = (.fatal "error loading files: %s\n" err, w3)) ∧
    (∀ fm w3 fm1 err w4, deps.LoadFiles deps.NewFilemap flags.Files w2 = ((fm, none), w3) →
      deps.LoadFilesets fm flags.Filesets (cmd.ApplyAIFlags sz flags conf) config.ConfigFile w3
        = ((fm1, some err), w4) →
      cmd.PrepareRequest deps sz flags w
        = (.fatal "error loading filesets: %s\n" err, w4)) := by
  constructor
  · intro fm err w3 hfiles
    simp only [cmd.PrepareRequest, hchdir, hload, hfiles]
  · intro fm w3 fm1 err w4 hfiles hsets
    simp only [cmd.PrepareRequest, hchdir, hload, hfiles, hsets]

/-- Witness for the amended C5: with `main.go` on disk, the unknown fileset `docs2` is
fatal. -/
theorem PrepareRequest_load_failure_is_fatal_witness :
    cmd.PrepareRequest Examples.diskDeps .bits64
        { Examples.someFlags with Filesets := ["docs2"] } ["main.go"]
      = (.fatal "error loading filesets: %s\n" "fileset not found: docs2", ["main.go"]) :=
  (PrepareRequest_load_failure_is_fatal Examples.diskDeps .bits64
      { Examples.someFlags with Filesets := ["docs2"] } ["main.go"] ["main.go"] ["main.go"]
      Examples.docsConfig rfl rfl).2 ["main.go"] ["main.go"] ["main.go"]
      "fileset not found: docs2" ["main.go"] rfl rfl

/-! ## Properties of the GPT-3 client -/

/-- C7. On a successful backend response, `Generate` and `Edit` return one string per
choice: the result has the length of the choice list and its `i`-th element is the
`Text` of the `i`-th choice. -/
theorem Generate_Edit_one_text_per_choice {ε : Type} (api : gpt3.Backend ε)
    (c : gpt3.gpt3Client) (resp : gpt3.Response) :
    (∀ params, c.completionParams = some params →
      api.CreateCompletion c.client params = .ok resp →
      ∃ out, (c.Generate api).2 = .ok out ∧ out.length = resp.Choices.length ∧
        ∀ i : Nat, out[i]? = (resp.Choices[i]?).map (fun (choice : gpt3.Choice) => choice.Text)) ∧
    (∀ params, c.editParams = some params →
      api.Edits c.client params = .ok resp →
      ∃ out, (c.Edit api).2 = .ok out ∧ out.length = resp.Choices.length ∧
        ∀ i : Nat, out[i]? = (resp.Choices[i]?).map (fun (choice : gpt3.Choice) => choice.Text)) := by
  constructor
  · intro params hp hr
    refine ⟨resp.Choices.map (fun (choice : gpt3.Choice) => choice.Text), ?_, by simp, by simp⟩
    simp [gpt3.gpt3Client.Generate, hp, hr, collectTexts_eq_map]
  · intro params hp hr
    refine ⟨resp.Choices.map (fun (choice : gpt3.Choice) => choice.Text), ?_, by simp, by simp⟩
    simp [gpt3.gpt3Client.Edit, hp, hr, collectTexts_eq_map]

/-- Witness for C7: the two choices of the canned completion come back in order, and an
empty choice list gives an empty result without error. -/
theorem Generate_Edit_one_text_per_choice_witness :
    (∃ out, ((gpt3.CreateGPT3GenerateClient Examples.keyedGPT3).Generate
        Examples.cannedBackend).2 = .ok out ∧ out.length = 2 ∧
      ∀ i : Nat, out[i]? = ([({ Text := "first", Index := 0 } : gpt3.Choice),
        { Text := "second", Index := 1 }][i]?).map (fun (choice : gpt3.Choice) => choice.Text)) ∧
    ((gpt3.CreateGPT3GenerateClient Examples.keyedGPT3).Generate
        { Examples.cannedBackend with
          CreateCompletion := fun _ _ => .ok { Choices := [] } }).2 = .ok [] :=
  ⟨(Generate_Edit_one_text_per_choice Examples.cannedBackend
      (gpt3.CreateGPT3GenerateClient Examples.keyedGPT3)
      { Choices := [{ Text := "first", Index := 0 }, { Text := "second", Index := 1 }] }).1
      Examples.keyedGPT3.GenerateParams rfl rfl,
   rfl⟩


/-- C8. `Generate` fails with the client's own error "no completions params were
provided" exactly when the client has no completion parameters, `Edit` fails with "no
edit params were provided" exactly when it has no edit parameters, and in both cases no
request has been sent. Clients built by `CreateGPT3GenerateClient` and
`CreateGPT3EditClient` never fail `Generate`, respectively `Edit`, this way. -/
theorem missing_params_error_iff_no_params {ε : Type} (api : gpt3.Backend ε)
    (c : gpt3.gpt3Client) :
    ((c.Generate api).2 = .error (.errorf "no completions params were provided")
        ↔ c.completionParams = none) ∧
    (c.completionParams = none → (c.Generate api).1 = []) ∧
    ((c.Edit api).2 = .error (.errorf "no edit params were provided")
        ↔ c.editParams = none) ∧
    (c.editParams = none → (c.Edit api).1 = []) ∧
    (∀ conf : gpt3.Config, ((gpt3.CreateGPT3GenerateClient conf).Generate api).2
        ≠ .error (.errorf "no completions params were provided")) ∧
    (∀ (conf : gpt3.Config) (input instruction : String) (numEdits : Int)
        (temperature topP : Option float32),
      ((gpt3.CreateGPT3EditClient conf input instruction numEdits temperature topP).Edit api).2
        ≠ .error (.errorf "no edit params were provided")) := by
  have hgen : ∀ c : gpt3.gpt3Client,
      ((c.Generate api).2 = .error (.errorf "no completions params were provided")
        ↔ c.completionParams = none) := by
    intro c
    unfold gpt3.gpt3Client.Generate
    cases hp : c.completionParams with
    | none => simp
    | some params => cases hr : api.CreateCompletion c.client params <;> simp [hr]
  have hedit : ∀ c : gpt3.gpt3Client,
      ((c.Edit api).2 = .error (.errorf "no edit params were provided")
        ↔ c.editParams = none) := by
    intro c
    unfold gpt3.gpt3Client.Edit
    cases hp : c.editParams with
    | none => simp
    | some params => cases hr : api.Edits c.client params <;> simp [hr]
  refine ⟨hgen c, ?_, hedit c, ?_, ?_, ?_⟩
  · intro h
    simp [gpt3.gpt3Client.Generate, h]
  · intro h
    simp [gpt3.gpt3Client.Edit, h]
  · intro conf h
    have := (hgen _).mp h
    simp [gpt3.CreateGPT3GenerateClient] at this
  · intro conf input instruction numEdits temperature topP h
    have := (hedit _).mp h
    simp [gpt3.CreateGPT3EditClient] at this

/-- Witness for C8: a client built for edits has no completion parameters, so its
`Generate` fails with the client's error before any request. -/
theorem missing_params_error_iff_no_params_witness :
    ((gpt3.CreateGPT3EditClient Examples.keyedGPT3 "x := 1" "rename x" 1 none none).Generate
        Examples.cannedBackend).2 = .error (.errorf "no completions params were provided") ∧
    ((gpt3.CreateGPT3EditClient Examples.keyedGPT3 "x := 1" "rename x" 1 none none).Generate
        Examples.cannedBackend).1 = [] :=
  ⟨(missing_params_error_iff_no_params Examples.cannedBackend
      (gpt3.CreateGPT3EditClient Examples.keyedGPT3 "x := 1" "rename x" 1 none none)).1.mpr rfl,
   (missing_params_error_iff_no_params Examples.cannedBackend
      (gpt3.CreateGPT3EditClient Examples.keyedGPT3 "x := 1" "rename x" 1 none none)).2.1 rfl⟩

/-! ## Properties of `ApplyAIFlags` -/

/-- C9. With a GPT-3 section present, a non-zero `NTokens` becomes the section's generate
parameter `MaxTokens` and a non-zero `NCompletions` becomes its `N`; an `int32` flag
value arrives with the same value, whatever the width of `int`. -/
theorem ApplyAIFlags_sets_GPT3_MaxTokens_and_N (sz : IntSize) (flags : cmd.Flags)
    (conf : config.Config) (g : gpt3.Config) (hg : conf.GPT3 = some g)
    (htok : isInt32 flags.NTokens) (hcomp : isInt32 flags.NCompletions) :
    (flags.NTokens ≠ 0 →
      ∃ g1, (cmd.ApplyAIFlags sz flags conf).GPT3 = some g1 ∧
        g1.GenerateParams.MaxTokens = flags.NTokens) ∧
    (flags.NCompletions ≠ 0 →
      ∃ g1, (cmd.ApplyAIFlags sz flags conf).GPT3 = some g1 ∧
        g1.GenerateParams.N = flags.NCompletions) := by
  have h1 := wrapSigned_of_isInt32 sz _ htok
  have h2 := wrapSigned_of_isInt32 sz _ hcomp
  constructor
  · intro hne
    by_cases hc : flags.NCompletions = 0
    · simp [cmd.ApplyAIFlags, hg, hne, hc, h1]
    · simp [cmd.ApplyAIFlags, hg, hne, hc, h1]
  · intro hne
    by_cases ht : flags.NTokens = 0
    · simp [cmd.ApplyAIFlags, hg, hne, ht, h2]
    · simp [cmd.ApplyAIFlags, hg, hne, ht, h2]

/-- Witness for C9: `--ntokens 1` with the default GPT-3 section gives `MaxTokens = 1`. -/
theorem ApplyAIFlags_sets_GPT3_MaxTokens_and_N_witness :
    ∃ g1, (cmd.ApplyAIFlags .bits64 Examples.tokenFlags Examples.fullConfig).GPT3 = some g1 ∧
      g1.GenerateParams.MaxTokens = 1 :=
  (ApplyAIFlags_sets_GPT3_MaxTokens_and_N .bits64 Examples.tokenFlags Examples.fullConfig
    Examples.keyedGPT3 rfl (by decide) (by decide)).1 (by decide)


/-- C10. For a non-zero `NTokens`, `ApplyAIFlags` sets the token limit of one backend
section, the first present among GPT3 (`MaxTokens`), GPTJ (`ResponseLength`) and BLOOM
(`MaxNewTokens`), and leaves the other sections as they were; with no section present
the configuration is unchanged. The selected `Backend` plays no part: replacing it
commutes with `ApplyAIFlags`. -/
theorem ApplyAIFlags_token_limit_by_section_priority (sz : IntSize) (flags : cmd.Flags)
    (conf : config.Config) (hne : flags.NTokens ≠ 0) (htok : isInt32 flags.NTokens) :
    (∀ g, conf.GPT3 = some g →
      (∃ g1, (cmd.ApplyAIFlags sz flags conf).GPT3 = some g1 ∧
        g1.GenerateParams.MaxTokens = flags.NTokens ∧
        { g1 with GenerateParams := { g1.GenerateParams with
            MaxTokens := g.GenerateParams.MaxTokens, N := g.GenerateParams.N } } = g) ∧
      (cmd.ApplyAIFlags sz flags conf).GPTJ = conf.GPTJ ∧
      (cmd.ApplyAIFlags sz flags conf).BLOOM = conf.BLOOM) ∧
    (conf.GPT3 = none → ∀ j, conf.GPTJ = some j →
      (cmd.ApplyAIFlags sz flags conf).GPTJ =
        some { j with GenerateParams := { j.GenerateParams with
          ResponseLength := flags.NTokens } } ∧
      (cmd.ApplyAIFlags sz flags conf).GPT3 = none ∧
      (cmd.ApplyAIFlags sz flags conf).BLOOM = conf.BLOOM) ∧
    (conf.GPT3 = none → conf.GPTJ = none → ∀ b, conf.BLOOM = some b →
      (cmd.ApplyAIFlags sz flags conf).BLOOM =
        some { b with GenerateParams := { b.GenerateParams with
          MaxNewTokens := flags.NTokens } } ∧
      (cmd.ApplyAIFlags sz flags conf).GPT3 = none ∧
      (cmd.ApplyAIFlags sz flags conf).GPTJ = none) ∧
    (conf.GPT3 = none → conf.GPTJ = none → conf.BLOOM = none →
      cmd.ApplyAIFlags sz flags conf = conf) ∧
    (∀ backend : String,
      cmd.ApplyAIFlags sz flags { conf with Backend := backend } =
        { cmd.ApplyAIFlags sz flags conf with Backend := backend }) := by
  have h1 := wrapSigned_of_isInt32 sz _ htok
  refine ⟨?_, ?_, ?_, ?_, ?_⟩
  · intro g hg
    by_cases hc : flags.NCompletions = 0 <;> simp [cmd.ApplyAIFlags, hg, hne, hc, h1]
  · intro h3 j hj
    by_cases hc : flags.NCompletions = 0 <;> simp [cmd.ApplyAIFlags, h3, hj, hne, hc]
  · intro h3 hj b hb
    by_cases hc : flags.NCompletions = 0 <;> simp [cmd.ApplyAIFlags, h3, hj, hb, hne, hc, h1]
  · intro h3 hj hb
    by_cases hc : flags.NCompletions = 0 <;> simp [cmd.ApplyAIFlags, h3, hj, hb, hne, hc]
  · intro backend
    by_cases hc : flags.NCompletions = 0 <;>
      rcases h3 : conf.GPT3 with _ | g <;>
      rcases hj : conf.GPTJ with _ | j <;>
      rcases hb : conf.BLOOM with _ | b <;>
      simp [cmd.ApplyAIFlags, h3, hj, hb, hne, hc]

/-- Witness for C10: with all three sections present and GPT-J selected, `--ntokens 1`
changes `MaxTokens` of the GPT-3 section and leaves the GPT-J and BLOOM sections. -/
theorem ApplyAIFlags_token_limit_by_section_priority_witness :
    (∃ g1, (cmd.ApplyAIFlags .bits64 Examples.tokenFlags Examples.fullConfig).GPT3 = some g1 ∧
      g1.GenerateParams.MaxTokens = 1 ∧
      { g1 with GenerateParams := { g1.GenerateParams with
          MaxTokens := 256, N := 1 } } = Examples.keyedGPT3) ∧
    (cmd.ApplyAIFlags .bits64 Examples.tokenFlags Examples.fullConfig).GPTJ =
      some { URL := "http://localhost:8080", GenerateParams := { ResponseLength := 128 } } ∧
    (cmd.ApplyAIFlags .bits64 Examples.tokenFlags Examples.fullConfig).BLOOM =
      some { URL := "http://localhost:8081", GenerateParams := { MaxNewTokens := 64 } } :=
  (ApplyAIFlags_token_limit_by_section_priority .bits64 Examples.tokenFlags Examples.fullConfig
    (by decide) (by decide)).1 Examples.keyedGPT3 rfl


/-! ## The newline normalisation of `PrintOrWriteOut` -/

theorem list_pair_induction {P : List Char → Prop} (h0 : P []) (h1 : ∀ c, P [c])
    (h2 : ∀ c d rest, P rest → P (d :: rest) → P (c :: d :: rest)) : ∀ s, P s := by
  have key : ∀ s, P s ∧ ∀ c, P (c :: s) := by
    intro s
    induction s with
    | nil => exact ⟨h0, h1⟩
    | cons d rest ih => exact ⟨ih.2 d, fun c => h2 c d rest ih.1 (ih.2 d)⟩
  exact fun s => (key s).1

theorem escapedNewline_eq : cmd.escapedNewline = ['\\', 'n'] := rfl

theorem lineBreak_eq : cmd.lineBreak = ['\n'] := rfl

theorem unescape_nil :
    strings.replaceFrom cmd.escapedNewline cmd.lineBreak 0 [] = [] := by
  simp [strings.replaceFrom]

theorem unescape_single (c : Char) :
    strings.replaceFrom cmd.escapedNewline cmd.lineBreak 0 [c] = [c] := by
  simp [strings.replaceFrom, escapedNewline_eq, List.isPrefixOf]

theorem unescape_match (rest : List Char) :
    strings.replaceFrom cmd.escapedNewline cmd.lineBreak 0 ('\\' :: 'n' :: rest)
      = '\n' :: strings.replaceFrom cmd.escapedNewline cmd.lineBreak 0 rest := by
  simp [strings.replaceFrom, escapedNewline_eq, lineBreak_eq, List.isPrefixOf]

theorem unescape_copy (c d : Char) (rest : List Char) (h : ¬ (c = '\\' ∧ d = 'n')) :
    strings.replaceFrom cmd.escapedNewline cmd.lineBreak 0 (c :: d :: rest)
      = c :: strings.replaceFrom cmd.escapedNewline cmd.lineBreak 0 (d :: rest) := by
  have h1 : List.isPrefixOf cmd.escapedNewline (c :: d :: rest) = false := by
    simp only [escapedNewline_eq, List.isPrefixOf, Bool.and_true]
    by_cases hc : c = '\\'
    · have hd : d ≠ 'n' := fun hd => h ⟨hc, hd⟩
      simp [hc, hd, Ne.symm hd]
    · simp [hc, Ne.symm hc]
  rw [strings.replaceFrom, h1]
  simp


theorem escaped_prefix_iff (s : List Char) :
    cmd.escapedNewline <+: s ↔ ∃ rest, s = '\\' :: 'n' :: rest := by
  constructor
  · rintro ⟨t, ht⟩
    exact ⟨t, by simpa [escapedNewline_eq] using ht.symm⟩
  · rintro ⟨rest, rfl⟩
    exact ⟨rest, by simp [escapedNewline_eq]⟩

theorem escaped_infix_cons (c : Char) (s : List Char) :
    cmd.escapedNewline <:+: c :: s ↔
      (c = '\\' ∧ s.head? = some 'n') ∨ cmd.escapedNewline <:+: s := by
  rw [List.infix_cons_iff, escaped_prefix_iff]
  constructor
  · rintro (⟨rest, h⟩ | h)
    · left
      simp only [List.cons.injEq] at h
      exact ⟨h.1, by simp [h.2]⟩
    · exact Or.inr h
  · rintro (⟨hc, hs⟩ | h)
    · left
      cases s with
      | nil => simp at hs
      | cons d rest =>
        simp only [List.head?_cons, Option.some.injEq] at hs
        exact ⟨rest, by simp [hc, hs]⟩
    · exact Or.inr h

theorem escaped_not_infix_short : ¬ cmd.escapedNewline <:+: [] ∧
    ∀ c, ¬ cmd.escapedNewline <:+: [c] := by
  constructor
  · simp [escapedNewline_eq]
  · intro c h
    have := h.length_le
    simp [escapedNewline_eq] at this

theorem splitEscaped_head (s : List Char) :
    ∀ p ps x, cmd.splitEscaped s = p :: ps → p.head? = some x → s.head? = some x := by
  intro p ps x hs hx
  match s, hs with
  | [], hs =>
    simp only [cmd.splitEscaped, List.cons.injEq] at hs
    rw [← hs.1] at hx
    simp at hx
  | [c], hs =>
    simp only [cmd.splitEscaped, List.cons.injEq] at hs
    rw [← hs.1] at hx
    simpa using hx
  | c :: d :: rest, hs =>
    by_cases hm : c = '\\' ∧ d = 'n'
    · rw [cmd.splitEscaped, if_pos hm] at hs
      simp only [List.cons.injEq] at hs
      rw [← hs.1] at hx
      simp at hx
    · rw [cmd.splitEscaped, if_neg hm] at hs
      cases hq : cmd.splitEscaped (d :: rest) with
      | nil =>
        rw [hq] at hs
        simp only [List.cons.injEq] at hs
        rw [← hs.1] at hx
        simpa using hx
      | cons q qs =>
        rw [hq] at hs
        simp only [List.cons.injEq] at hs
        rw [← hs.1] at hx
        simpa using hx

theorem intercalate_cons_cons (sep p q : List Char) (ps : List (List Char)) :
    List.intercalate sep (p :: q :: ps) = p ++ sep ++ List.intercalate sep (q :: ps) := by
  simp [List.intercalate, List.intersperse]

theorem intercalate_push (sep : List Char) (c : Char) (p : List Char)
    (ps : List (List Char)) :
    List.intercalate sep ((c :: p) :: ps) = c :: List.intercalate sep (p :: ps) := by
  cases ps with
  | nil => simp [List.intercalate, List.intersperse]
  | cons q qs => simp [intercalate_cons_cons]

theorem splitEscaped_ne_nil (s : List Char) : cmd.splitEscaped s ≠ [] := by
  match s with
  | [] => simp [cmd.splitEscaped]
  | [c] => simp [cmd.splitEscaped]
  | c :: d :: rest =>
    by_cases hm : c = '\\' ∧ d = 'n'
    · simp [cmd.splitEscaped, hm]
    · rw [cmd.splitEscaped, if_neg hm]
      cases cmd.splitEscaped (d :: rest) <;> simp

theorem splitEscaped_spec (s : List Char) :
    (∀ p ∈ cmd.splitEscaped s, ¬ cmd.escapedNewline <:+: p) ∧
    List.intercalate cmd.escapedNewline (cmd.splitEscaped s) = s ∧
    List.intercalate cmd.lineBreak (cmd.splitEscaped s)
      = strings.replaceFrom cmd.escapedNewline cmd.lineBreak 0 s := by
  induction s using list_pair_induction with
  | h0 =>
    refine ⟨?_, by simp [cmd.splitEscaped, List.intercalate],
      by simp [cmd.splitEscaped, List.intercalate, unescape_nil]⟩
    intro p hp
    simp [cmd.splitEscaped] at hp
    subst hp
    exact escaped_not_infix_short.1
  | h1 c =>
    refine ⟨?_, by simp [cmd.splitEscaped, List.intercalate],
      by simp [cmd.splitEscaped, List.intercalate, unescape_single]⟩
    intro p hp
    simp [cmd.splitEscaped] at hp
    subst hp
    exact escaped_not_infix_short.2 c
  | h2 c d rest ih1 ih2 =>
    by_cases hm : c = '\\' ∧ d = 'n'
    · obtain ⟨rfl, rfl⟩ := hm
      have hsplit : cmd.splitEscaped ('\\' :: 'n' :: rest) = [] :: cmd.splitEscaped rest := by
        simp [cmd.splitEscaped]
      obtain ⟨q, qs, hq⟩ := List.exists_cons_of_ne_nil (splitEscaped_ne_nil rest)
      rw [hsplit]
      refine ⟨?_, ?_, ?_⟩
      · intro p hp
        rcases List.mem_cons.mp hp with rfl | hp
        · exact escaped_not_infix_short.1
        · exact ih1.1 p hp
      · rw [hq, intercalate_cons_cons, ← hq, ih1.2.1]
        simp [escapedNewline_eq]
      · rw [hq, intercalate_cons_cons, ← hq, ih1.2.2, unescape_match]
        simp [lineBreak_eq]
    · obtain ⟨q, qs, hq⟩ := List.exists_cons_of_ne_nil (splitEscaped_ne_nil (d :: rest))
      have hsplit : cmd.splitEscaped (c :: d :: rest) = (c :: q) :: qs := by
        rw [cmd.splitEscaped, if_neg hm, hq]
      rw [hsplit]
      rw [hq] at ih2
      refine ⟨?_, ?_, ?_⟩
      · intro p hp
        rcases List.mem_cons.mp hp with rfl | hp
        · rw [escaped_infix_cons]
          rintro (⟨hc, hn⟩ | hin)
          · have := splitEscaped_head (d :: rest) q qs 'n' hq hn
            simp only [List.head?_cons, Option.some.injEq] at this
            exact hm ⟨hc, this⟩
          · exact ih2.1 q (List.mem_cons_self _ _) hin
        · exact ih2.1 p (List.mem_cons_of_mem _ hp)
      · rw [intercalate_push, ih2.2.1]
      · rw [intercalate_push, ih2.2.2, unescape_copy c d rest hm]


theorem unescape_head (s : List Char) (x : Char)
    (h : (strings.replaceFrom cmd.escapedNewline cmd.lineBreak 0 s).head? = some x) :
    x = '\n' ∨ s.head? = some x := by
  match s, h with
  | [], h => simp [unescape_nil] at h
  | [c], h =>
    rw [unescape_single] at h
    exact Or.inr h
  | c :: d :: rest, h =>
    by_cases hm : c = '\\' ∧ d = 'n'
    · obtain ⟨rfl, rfl⟩ := hm
      rw [unescape_match] at h
      simp only [List.head?_cons, Option.some.injEq] at h
      exact Or.inl h.symm
    · rw [unescape_copy c d rest hm] at h
      exact Or.inr h

theorem unescape_no_escaped (s : List Char) :
    ¬ cmd.escapedNewline <:+: strings.replaceFrom cmd.escapedNewline cmd.lineBreak 0 s := by
  induction s using list_pair_induction with
  | h0 =>
    rw [unescape_nil]
    exact escaped_not_infix_short.1
  | h1 c =>
    rw [unescape_single]
    exact escaped_not_infix_short.2 c
  | h2 c d rest ih1 ih2 =>
    by_cases hm : c = '\\' ∧ d = 'n'
    · obtain ⟨rfl, rfl⟩ := hm
      rw [unescape_match, escaped_infix_cons]
      rintro (⟨hc, -⟩ | hin)
      · exact absurd hc (by decide)
      · exact ih1 hin
    · rw [unescape_copy c d rest hm, escaped_infix_cons]
      rintro (⟨hc, hn⟩ | hin)
      · rcases unescape_head (d :: rest) 'n' hn with hx | hx
        · exact absurd hx (by decide)
        · simp only [List.head?_cons, Option.some.injEq] at hx
          exact hm ⟨hc, hx⟩
      · exact ih2 hin

theorem unescape_of_no_escaped (s : List Char) :
    ¬ cmd.escapedNewline <:+: s →
      strings.replaceFrom cmd.escapedNewline cmd.lineBreak 0 s = s := by
  induction s using list_pair_induction with
  | h0 => exact fun _ => unescape_nil
  | h1 c => exact fun _ => unescape_single c
  | h2 c d rest _ ih2 =>
    intro hno
    rw [escaped_infix_cons] at hno
    have hm : ¬ (c = '\\' ∧ d = 'n') := fun hm => hno (Or.inl ⟨hm.1, by simp [hm.2]⟩)
    rw [unescape_copy c d rest hm, ih2 (fun hin => hno (Or.inr hin))]

theorem ReplaceAll_escaped_newline (s : String) :
    strings.ReplaceAll s "\\n" "\n"
      = ⟨strings.replaceFrom cmd.escapedNewline cmd.lineBreak 0 s.data⟩ := by
  have h1 : ("\\n" : String) ≠ "\n" := by decide
  have h2 : ("\\n" : String).data ≠ [] := by decide
  simp only [strings.ReplaceAll, if_neg h1, if_neg h2]
  rfl

/-- C6. When the encoding succeeds with text `s`, `PrintOrWriteOut` prints one text
`out`, and `out` is `s` with every escaped newline (backslash, `n`) replaced by a line
break and nothing else changed: `s` is the stretches `pieces`, none of which contains an
escaped newline, joined by escaped newlines, and `out` is the same stretches joined by
line breaks. So `out` contains no escaped newline, equals `s` when `s` contains none,
and normalising it again gives `out`. -/
theorem PrintOrWriteOut_prints_escaped_newlines_as_line_breaks {W FM ε : Type}
    (ops : cmd.FilemapOps W FM ε) (r : cmd.Request FM) (w : W) (s : String)
    (hw : r.IsWrite = false)
    (henc : (ops.EncodeToInputTextFullPaths r.Filemap r.OutputType w).1 = .ok s) :
    ∃ out : String,
      cmd.printedTexts (cmd.PrintOrWriteOut ops r w).events = [out] ∧
      (∃ pieces : List (List Char),
        (∀ p ∈ pieces, ¬ cmd.escapedNewline <:+: p) ∧
        s.data = List.intercalate cmd.escapedNewline pieces ∧
        out.data = List.intercalate cmd.lineBreak pieces) ∧
      ¬ cmd.escapedNewline <:+: out.data ∧
      (¬ cmd.escapedNewline <:+: s.data → out = s) ∧
      strings.ReplaceAll out "\\n" "\n" = out := by
  refine ⟨strings.ReplaceAll s "\\n" "\n", ?_, ?_, ?_, ?_, ?_⟩
  · unfold cmd.PrintOrWriteOut
    rw [if_neg (by simp [hw])]
    rcases hres : ops.EncodeToInputTextFullPaths r.Filemap r.OutputType w with
      ⟨err | out, w1⟩
    · rw [hres] at henc
      cases henc
    · rw [hres] at henc
      cases henc
      simp [cmd.printedTexts]
  · obtain ⟨hp, hs, ho⟩ := splitEscaped_spec s.data
    exact ⟨cmd.splitEscaped s.data, hp, hs.symm, by rw [ReplaceAll_escaped_newline, ho]⟩
  · rw [ReplaceAll_escaped_newline]
    exact unescape_no_escaped s.data
  · intro hno
    rw [ReplaceAll_escaped_newline, unescape_of_no_escaped s.data hno]
  · rw [ReplaceAll_escaped_newline s, ReplaceAll_escaped_newline]
    exact congrArg String.mk (unescape_of_no_escaped _ (unescape_no_escaped s.data))

/-- Witness for C6: the encoded text `a\nb\\n` (two escaped newlines, the second after a
backslash) is printed as `a`, line break, `b\`, line break. -/
theorem PrintOrWriteOut_prints_escaped_newlines_as_line_breaks_witness :
    cmd.printedTexts (cmd.PrintOrWriteOut Examples.textOps
        (Examples.textRequest "a\\nb\\\\n" false "json") []).events = ["a\nb\\\n"] ∧
    ∃ out : String,
      cmd.printedTexts (cmd.PrintOrWriteOut Examples.textOps
        (Examples.textRequest "a\\nb\\\\n" false "json") []).events = [out] ∧
      (∃ pieces : List (List Char),
        (∀ p ∈ pieces, ¬ cmd.escapedNewline <:+: p) ∧
        ("a\\nb\\\\n" : String).data = List.intercalate cmd.escapedNewline pieces ∧
        out.data = List.intercalate cmd.lineBreak pieces) ∧
      ¬ cmd.escapedNewline <:+: out.data ∧
      (¬ cmd.escapedNewline <:+: ("a\\nb\\\\n" : String).data → out = "a\\nb\\\\n") ∧
      strings.ReplaceAll out "\\n" "\n" = out :=
  ⟨by decide,
   PrintOrWriteOut_prints_escaped_newlines_as_line_breaks Examples.textOps
    (Examples.textRequest "a\\nb\\\\n" false "json") [] "a\\nb\\\\n" rfl rfl⟩

end CopilotOps
